import Mathlib

/-!
Verification of the Dine_Sync batch ETL scripts (`src/sync.py` and
`src/Dine_Sync_DOUBLETAP/sync.py`) against their natural-language
specification.

Shallow embedding conventions:
* Python driver/row values are modelled by `DineSync.Val`.  Python numbers
  (`int`, `float`, `Decimal`) are modelled as exact rationals (`ℚ`): every
  IEEE double that is relevant to the claims (integers exactly representable
  as doubles) has an exact rational value, and arithmetic used by the code
  (`float`, `int`, `str`) is exact on those values.
* Python exceptions are modelled with `Except String`; an uncaught exception
  is an `Except.error` escaping a function's boundary.
* The HTTP boundary (`requests.post`) is modelled by an oracle value `Wire`
  describing the outcome of one POST; response bodies are modelled already
  parsed (`resp.json()` is assumed to succeed on a non-empty body).
* Database fetches are inputs to the `run` models: each job's `run` takes
  the connection outcome, the fetch outcome (rows, or a raised error), and
  the wire oracle, and returns its result together with the list of payloads
  for which an HTTP POST was actually issued.
-/

namespace DineSync

/-- A Python value as it appears in a row dict handed around by `sync.py`.
`none` is Python `None`; `str` a `str`; `num` an `int`/`float`/`Decimal`
(exact-rational model); `time` a `datetime`-like object whose `isoformat()`
returns the stored string; `other` any other driver object (e.g. `bytes`),
tagged by a description of it. -/
inductive Val where
  | none : Val
  | str (s : String) : Val
  | num (q : ℚ) : Val
  | time (iso : String) : Val
  | other (tag : String) : Val
deriving DecidableEq, Repr

/-- A row dict (Python `dict(zip(fields, row))`), modelled as an association
list from field name to value.  Field lists come from `config.json` and have
distinct keys. -/
abbrev PyDict := List (String × Val)

/-- Python truthiness of a `Val` (`if row_dict.get(k):`).  `None`, `""` and
numeric zero are falsy; `datetime` objects and other objects are truthy. -/
def truthy : Val → Bool
  | .none => false
  | .str s => !s.isEmpty
  | .num q => q != 0
  | .time _ => true
  | .other _ => true

/-- `d.get(k)` of Python: the value at key `k`, or `None` when absent. -/
def dgetV (d : PyDict) (k : String) : Val :=
  match d.find? (fun kv => kv.1 == k) with
  | some kv => kv.2
  | Option.none => Val.none

/-- `d[k] = v` of Python for a key already present (all assignments in
`sync.py` are guarded by `get(k)` checks, so `k` is present); keys are
distinct, so replacing every binding of `k` models the dict update. -/
def dset (d : PyDict) (k : String) (v : Val) : PyDict :=
  d.map (fun kv => if kv.1 == k then (k, v) else kv)

/-- The character for decimal digit `d` (`'0'`..`'9'` for `d < 10`). -/
def digChar (d : ℕ) : Char := Char.ofNat (48 + d)

/-- The numeric value of a decimal digit character, `Option.none` for
non-digits. -/
def digVal (c : Char) : Option ℕ :=
  if 48 ≤ c.toNat ∧ c.toNat ≤ 57 then some (c.toNat - 48) else Option.none

/-- Fuel-driven kernel of `natDigits`; `fuel > n` suffices. -/
def natDigitsAux : ℕ → ℕ → List Char
  | 0, _ => []
  | fuel + 1, n =>
    if n < 10 then [digChar n]
    else natDigitsAux fuel (n / 10) ++ [digChar (n % 10)]

/-- The decimal digits of `n`, most significant first (`str(1024)` →
`['1','0','2','4']`). -/
def natDigits (n : ℕ) : List Char := natDigitsAux (n + 1) n

/-- Python `str` of a non-negative `int`: plain decimal digits. -/
def natRepr (n : ℕ) : String := String.mk (natDigits n)

/-- Python `str` of an `int`: decimal digits with a leading minus sign for
negative values. -/
def intStr (m : ℤ) : String :=
  if m < 0 then String.mk ('-' :: natDigits m.natAbs) else natRepr m.natAbs

/-- Python `int()` applied to a number: truncation toward zero. -/
def truncQ (q : ℚ) : ℤ := if 0 ≤ q then ⌊q⌋ else ⌈q⌉

/-- Digit-list accumulator of the decimal parser: consumes digit characters,
failing on any non-digit. -/
def parseDigitsCore : List Char → ℕ → Option ℕ
  | [], acc => some acc
  | c :: cs, acc =>
    match digVal c with
    | some d => parseDigitsCore cs (10 * acc + d)
    | Option.none => Option.none

/-- Parse a non-empty list of decimal digit characters to its value. -/
def parseDigits (cs : List Char) : Option ℕ :=
  if cs = [] then Option.none else parseDigitsCore cs 0

/-- Unsigned part of Python `float(str)`: digits with at most one decimal
point (`"1024"`, `"1024.5"`, `"1024."`, `".5"`); exponents, `inf`/`nan`,
underscores and surrounding whitespace are outside the model (no claim
touches them). -/
def parseUF (cs : List Char) : Option ℚ :=
  match cs.span (fun c => c != '.') with
  | (ds, []) =>
    match parseDigits ds with
    | some m => some ((m : ℚ))
    | Option.none => Option.none
  | (ds, _ :: fs) =>
    if ds = [] ∧ fs = [] then Option.none
    else
      match (if ds = [] then some 0 else parseDigits ds),
            (if fs = [] then some 0 else parseDigits fs) with
      | some ip, some fp => some ((ip : ℚ) + (fp : ℚ) / (10 : ℚ) ^ fs.length)
      | _, _ => Option.none

/-- Python `float(str)` on a decimal literal with optional sign. -/
def parseFloatQ (s : String) : Option ℚ :=
  match s.toList with
  | [] => Option.none
  | c :: cs =>
    if c = '-' then (parseUF cs).map Neg.neg
    else if c = '+' then parseUF cs
    else parseUF (c :: cs)

/-- Python `float(x)` on a row value: numbers pass through (exact-rational
model), strings are parsed (`ValueError` on a non-numeric string), and
`None`/`datetime`/other objects raise `TypeError`. -/
def pyFloat : Val → Except String ℚ
  | .num q => .ok q
  | .str s =>
    match parseFloatQ s with
    | some q => .ok q
    | Option.none => .error "ValueError: could not convert string to float"
  | .none => .error "TypeError: float() argument must be a string or a real number, not NoneType"
  | .time _ => .error "TypeError: float() argument must be a string or a real number, not datetime"
  | .other tag => .error ("TypeError: float() argument not convertible: " ++ tag)

/-- Python `str(x)` for the values reaching text fields.  `str` of a
`datetime` is modelled by its ISO string and `str` of a number by the
rational's rendering; both cases are outside the realistic domain of the
text fields (`user`, `item`, `creditcard`, `colnstatus`). -/
def pyStr : Val → String
  | .none => "None"
  | .str s => s
  | .num q => toString q
  | .time iso => iso
  | .other tag => tag

/-- `str(x).strip()` of `sync.py`: leading/trailing whitespace removed. -/
def pyStrip (v : Val) : String := (pyStr v).trim

/-- The `isoformat`-or-`str` conversion applied to `time`/`date` fields:
objects with `isoformat` (our `Val.time`) yield it, anything else truthy is
passed through `str`. -/
def isoStr : Val → String
  | .time iso => iso
  | v => pyStr v

/-- `str(int(float(x)))` — the identifier normalization applied to `billno`
and `slno` in `BillsSync.fetch`, `KotSalesSync.fetch` and
`CancelledBillsSync.fetch` (src/sync.py lines 212, 286, 290, 386). -/
def normId (v : Val) : Except String String :=
  (pyFloat v).map (fun q => intStr (truncQ q))

/-- The guarded identifier update
`if row_dict.get(k) is not None: row_dict[k] = str(int(float(row_dict[k])))`. -/
def normIdField (k : String) (d : PyDict) : Except String PyDict :=
  if dgetV d k = Val.none then .ok d
  else (normId (dgetV d k)).map (fun s => dset d k (Val.str s))

/-- The guarded float update
`if row_dict.get(k) is not None: row_dict[k] = float(row_dict[k])`. -/
def floatField (k : String) (d : PyDict) : Except String PyDict :=
  if dgetV d k = Val.none then .ok d
  else (pyFloat (dgetV d k)).map (fun q => dset d k (Val.num q))

/-- The guarded strip update
`if row_dict.get(k): row_dict[k] = str(row_dict[k]).strip()`. -/
def stripField (k : String) (d : PyDict) : PyDict :=
  if truthy (dgetV d k) then dset d k (Val.str (pyStrip (dgetV d k))) else d

/-- The guarded temporal update: `if row_dict.get(k):` then `isoformat()`
when available, else `str(...)`. -/
def isoField (k : String) (d : PyDict) : PyDict :=
  if truthy (dgetV d k) then dset d k (Val.str (isoStr (dgetV d k))) else d

/-- The body of the per-row `try:` block of `BillsSync.fetch`
(src/sync.py lines 199-222): time, billno, user, amount, in that order. -/
def processBillRow (d : PyDict) : Except String PyDict := do
  let d := isoField "time" d
  let d ← normIdField "billno" d
  let d := stripField "user" d
  let d ← floatField "amount" d
  pure d

/-- The body of the per-row `try:` block of `KotSalesSync.fetch`
(src/sync.py lines 281-304): slno, billno, item, qty, rate, in that order. -/
def processKotRow (d : PyDict) : Except String PyDict := do
  let d ← normIdField "slno" d
  let d ← normIdField "billno" d
  let d := stripField "item" d
  let d ← floatField "qty" d
  let d ← floatField "rate" d
  pure d

/-- The body of the per-row `try:` block of `CancelledBillsSync.fetch`
(src/sync.py lines 381-404): billno, date, creditcard, colnstatus. -/
def processCancelledRow (d : PyDict) : Except String PyDict := do
  let d ← normIdField "billno" d
  let d := isoField "date" d
  let d := stripField "creditcard" d
  let d := stripField "colnstatus" d
  pure d

/-- The body of the per-row `try:` block of `KotSalesSync.fetch` in the
DOUBLETAP script (src/Dine_Sync_DOUBLETAP/sync.py lines 471-494), translated
independently from that file. -/
def processKotRowDT (d : PyDict) : Except String PyDict := do
  let d ← normIdField "slno" d
  let d ← normIdField "billno" d
  let d := stripField "item" d
  let d ← floatField "qty" d
  let d ← floatField "rate" d
  pure d

/-- The body of the per-row `try:` block of `CancelledBillsSync.fetch` in the
DOUBLETAP script (src/Dine_Sync_DOUBLETAP/sync.py lines 579-602). -/
def processCancelledRowDT (d : PyDict) : Except String PyDict := do
  let d ← normIdField "billno" d
  let d := isoField "date" d
  let d := stripField "creditcard" d
  let d := stripField "colnstatus" d
  pure d

/-- `Except` success test. -/
def exceptOk {ε α : Type} : Except ε α → Bool
  | .ok _ => true
  | .error _ => false

/-- `Except` to `Option`. -/
def exceptToOption {ε α : Type} : Except ε α → Option α
  | .ok a => some a
  | .error _ => Option.none

/-- The `for row in cursor: try: ... rows.append(row_dict) except: continue`
loop of `BillsSync.fetch`: rows whose processing raises are skipped. -/
def billsNormalize (raws : List PyDict) : List PyDict :=
  raws.filterMap (fun r => exceptToOption (processBillRow r))

/-- The corresponding loop of `KotSalesSync.fetch`. -/
def kotNormalize (raws : List PyDict) : List PyDict :=
  raws.filterMap (fun r => exceptToOption (processKotRow r))

/-- A JSON value, for modelling parsed response bodies. -/
inductive JsonV where
  | null : JsonV
  | b (v : Bool) : JsonV
  | s (v : String) : JsonV
  | num (v : ℚ) : JsonV
  | arr (elems : List JsonV) : JsonV
  | obj (fields : List (String × JsonV)) : JsonV

/-- Outcome of one `requests.post` call, as seen by `api_post`: either a
`requests.RequestException` (connection failure, timeout, ...) carrying its
message, or a response with status code, raw text, and — when the text is
non-empty — its JSON-parsed body (bodies are modelled as parseable). -/
inductive Wire where
  | exn (msg : String) : Wire
  | resp (status : ℕ) (text : String) (body : JsonV) : Wire

/-- The second component of `api_post`'s return value: a parsed JSON body
(or `{}`), or `str(e)` of a caught exception. -/
inductive ApiSecond where
  | json (v : JsonV) : ApiSecond
  | err (s : String) : ApiSecond

/-- Is a value encodable by `json.dumps(..., default=decimal_to_float)`?
`None`/`str`/numbers (incl. `Decimal`, converted by the `default` hook) are;
`datetime` and other driver objects make `decimal_to_float` raise
`TypeError` (src/sync.py lines 13-17). -/
def jsonReady : Val → Bool
  | .time _ => false
  | .other _ => false
  | _ => true

/-- All values of one record are serializable. -/
def recOk (r : PyDict) : Bool := r.all (fun kv => jsonReady kv.2)

/-- `json.dumps(data, default=decimal_to_float)` succeeds on this payload. -/
def dumpsOk (data : List PyDict) : Bool := data.all recOk

/-- `BaseSync.api_post` (src/sync.py lines 67-83).  `json.dumps` runs first;
a `TypeError` raised by it (via `decimal_to_float`) is not a
`requests.RequestException`, so it escapes the `try` as an `Except.error`.
Otherwise the POST is issued: a `RequestException` is caught and returned as
`(False, str(e))`; a response yields `(status == 200, parsed body or {})`. -/
def api_post (data : List PyDict) (w : Wire) : Except String (Bool × ApiSecond) :=
  if dumpsOk data then
    match w with
    | .exn msg => .ok (false, .err msg)
    | .resp st text body =>
      .ok (st == 200, if text = "" then .json (JsonV.obj []) else .json body)
  else .error "TypeError: Object of type ... is not JSON serializable"

/-- Whether one POST outcome counts as success for the sync code
(`resp.status_code == 200`; any exception is failure). -/
def wireOk : Wire → Bool
  | .exn _ => false
  | .resp st _ _ => st == 200

/-- The second component `api_post` produces for a given wire outcome. -/
def respOut : Wire → ApiSecond
  | .exn m => .err m
  | .resp _ text body => if text = "" then .json (JsonV.obj []) else .json body

/-- The batch slicing of `for i in range(0, total_records, batch_size)`
with `batch = data[i:i + batch_size]`: `ceil(N/B)` contiguous slices. -/
def chunks {α : Type} (B : ℕ) (l : List α) : List (List α) :=
  (List.range ((l.length + B - 1) / B)).map (fun i => (l.drop (i * B)).take B)

/-- The sequential batch-POST loop shared by `ItemsSync.run` and
`KotSalesSync.run` (src/sync.py lines 155-170 and 333-348): send each batch
in order, return `False` on the first non-success, stop there; a `TypeError`
escaping `api_post` propagates.  `wire k` is the outcome of the `k`-th POST;
the returned list holds the batches for which a POST was actually issued. -/
def sendLoop (wire : ℕ → Wire) : ℕ → List (List PyDict) → Except String Bool × List (List PyDict)
  | _, [] => (.ok true, [])
  | k, b :: bs =>
    match api_post b (wire k) with
    | .error e => (.error e, [])
    | .ok (ok, _) =>
      if ok then
        let r := sendLoop wire (k + 1) bs
        (r.1, b :: r.2)
      else (.ok false, [b])

/-- `AccUsersSync.run` (src/sync.py lines 105-118).  No `except` clause:
an error raised by `fetch` or by `api_post`'s serialization escapes (the
`finally` only closes the connection).  The whole row list is sent in one
POST, with no empty-set check. -/
def AccUsersSync.run (connOk : Bool) (fetched : Except String (List PyDict))
    (wire : ℕ → Wire) : Except String Bool × List (List PyDict) :=
  if connOk = false then (.ok false, [])
  else
    match fetched with
    | .error e => (.error e, [])
    | .ok data =>
      match api_post data (wire 0) with
      | .error e => (.error e, [])
      | .ok (ok, _) => (.ok ok, [data])

/-- `ItemsSync.run` (src/sync.py lines 136-175).  No `except` clause: fetch
and serialization errors escape.  Empty data short-circuits to `True` with
no POST; otherwise batches of 1000 are sent via the loop. -/
def ItemsSync.run (connOk : Bool) (fetched : Except String (List PyDict))
    (wire : ℕ → Wire) : Except String Bool × List (List PyDict) :=
  if connOk = false then (.ok false, [])
  else
    match fetched with
    | .error e => (.error e, [])
    | .ok data =>
      if data.length = 0 then (.ok true, [])
      else sendLoop wire 0 (chunks 1000 data)

/-- `BillsSync.run` (src/sync.py lines 232-258).  `except Exception` catches
any error from fetch or `api_post` and returns `False`.  The whole row list
is sent in one POST, with no empty-set check. -/
def BillsSync.run (connOk : Bool) (fetched : Except String (List PyDict))
    (wire : ℕ → Wire) : Bool × List (List PyDict) :=
  if connOk = false then (false, [])
  else
    match fetched with
    | .error _ => (false, [])
    | .ok data =>
      match api_post data (wire 0) with
      | .error _ => (false, [])
      | .ok (ok, _) => (ok, [data])

/-- `KotSalesSync.run` (src/sync.py lines 314-356).  `except Exception`
catches any error and returns `False`; empty data short-circuits to `True`;
otherwise batches of 500 are sent via the loop. -/
def KotSalesSync.run (connOk : Bool) (fetched : Except String (List PyDict))
    (wire : ℕ → Wire) : Bool × List (List PyDict) :=
  if connOk = false then (false, [])
  else
    match fetched with
    | .error _ => (false, [])
    | .ok data =>
      if data.length = 0 then (true, [])
      else
        match sendLoop wire 0 (chunks 500 data) with
        | (.error _, sent) => (false, sent)
        | (.ok b, sent) => (b, sent)

/-- `CancelledBillsSync.run` (src/sync.py lines 414-440): same shape as
`BillsSync.run`. -/
def CancelledBillsSync.run (connOk : Bool) (fetched : Except String (List PyDict))
    (wire : ℕ → Wire) : Bool × List (List PyDict) :=
  if connOk = false then (false, [])
  else
    match fetched with
    | .error _ => (false, [])
    | .ok data =>
      match api_post data (wire 0) with
      | .error _ => (false, [])
      | .ok (ok, _) => (ok, [data])

/-- The environment one job's `run` sees: connection outcome, fetch outcome
(rows, or a raised database error), and the outcomes of its POSTs. -/
structure JobIn where
  connOk : Bool
  fetched : Except String (List PyDict)
  wire : ℕ → Wire

/-- `main` (src/sync.py lines 444-484): run the five jobs in order and
collect `(table, flag)` pairs.  `main` has no exception handler, so an error
escaping a job's `run` aborts the whole sequence (modelled by the `Except`
result); `BillsSync`, `KotSalesSync` and `CancelledBillsSync` cannot raise
(their `run` models are total boolean functions). -/
def mainRun (i1 i2 i3 i4 i5 : JobIn) : Except String (List (String × Bool)) := do
  let b1 ← (AccUsersSync.run i1.connOk i1.fetched i1.wire).1
  let b2 ← (ItemsSync.run i2.connOk i2.fetched i2.wire).1
  let b3 := (BillsSync.run i3.connOk i3.fetched i3.wire).1
  let b4 := (KotSalesSync.run i4.connOk i4.fetched i4.wire).1
  let b5 := (CancelledBillsSync.run i5.connOk i5.fetched i5.wire).1
  pure [("acc_users", b1), ("tb_item_master", b2), ("dine_bill", b3),
        ("dine_kot_sales_detail", b4), ("cancelled_bills", b5)]

/-! ### Decimal rendering and parsing lemmas -/

theorem digVal_digChar : ∀ d, d < 10 → digVal (digChar d) = some d := by decide

theorem digChar_ne_dot : ∀ d, d < 10 → (digChar d != '.') = true := by decide

theorem digChar_ne_minus : ∀ d, d < 10 → ¬ digChar d = '-' := by decide

theorem digChar_ne_plus : ∀ d, d < 10 → ¬ digChar d = '+' := by decide

theorem natDigitsAux_irrel (m : ℕ) :
    ∀ f1 f2, m < f1 → m < f2 → natDigitsAux f1 m = natDigitsAux f2 m := by
  induction m using Nat.strong_induction_on with
  | _ m ih =>
    intro f1 f2 h1 h2
    match f1, f2 with
    | f1 + 1, f2 + 1 =>
      show natDigitsAux (f1 + 1) m = natDigitsAux (f2 + 1) m
      simp only [natDigitsAux]
      by_cases h10 : m < 10
      · simp [h10]
      · simp only [h10, if_false]
        have hd : m / 10 < m := Nat.div_lt_self (by omega) (by omega)
        rw [ih (m / 10) hd f1 f2 (by omega) (by omega)]

/-- The characteristic equation of `natDigits`. -/
theorem natDigits_eq (n : ℕ) :
    natDigits n = if n < 10 then [digChar n]
                  else natDigits (n / 10) ++ [digChar (n % 10)] := by
  show natDigitsAux (n + 1) n = _
  simp only [natDigitsAux]
  by_cases h10 : n < 10
  · simp [h10]
  · simp only [h10, if_false]
    have hd : n / 10 < n := Nat.div_lt_self (by omega) (by omega)
    rw [natDigitsAux_irrel (n / 10) n (n / 10 + 1) (by omega) (by omega)]
    rfl

theorem natDigits_ne_nil (n : ℕ) : natDigits n ≠ [] := by
  rw [natDigits_eq]
  split <;> simp

theorem natDigits_mem (n : ℕ) : ∀ c ∈ natDigits n, ∃ d, d < 10 ∧ c = digChar d := by
  induction n using Nat.strong_induction_on with
  | _ n ih =>
    intro c hc
    rw [natDigits_eq] at hc
    by_cases h10 : n < 10
    · rw [if_pos h10] at hc
      simp only [List.mem_singleton] at hc
      exact ⟨n, h10, hc⟩
    · rw [if_neg h10] at hc
      rcases List.mem_append.mp hc with h | h
      · exact ih (n / 10) (Nat.div_lt_self (by omega) (by omega)) c h
      · simp only [List.mem_singleton] at h
        exact ⟨n % 10, Nat.mod_lt _ (by omega), h⟩

theorem parseDigitsCore_append (xs ys : List Char) :
    ∀ acc, parseDigitsCore (xs ++ ys) acc
      = (parseDigitsCore xs acc).bind (fun m => parseDigitsCore ys m) := by
  induction xs with
  | nil => intro acc; rfl
  | cons c xs ih =>
    intro acc
    simp only [List.cons_append, parseDigitsCore]
    cases digVal c with
    | none => rfl
    | some d => exact ih _

theorem parseDigitsCore_natDigits (n : ℕ) :
    ∀ acc, parseDigitsCore (natDigits n) acc
      = some (acc * 10 ^ (natDigits n).length + n) := by
  induction n using Nat.strong_induction_on with
  | _ n ih =>
    intro acc
    rw [natDigits_eq]
    by_cases h10 : n < 10
    · rw [if_pos h10]
      show (match digVal (digChar n) with
            | some d => parseDigitsCore [] (10 * acc + d)
            | Option.none => Option.none)
          = some (acc * 10 ^ ([digChar n]).length + n)
      rw [digVal_digChar n h10]
      show some (10 * acc + n) = some (acc * 10 ^ 1 + n)
      rw [pow_one, Nat.mul_comm]
    · rw [if_neg h10]
      rw [parseDigitsCore_append]
      rw [ih (n / 10) (Nat.div_lt_self (by omega) (by omega)) acc]
      show parseDigitsCore [digChar (n % 10)] _ = _
      have hm : n % 10 < 10 := Nat.mod_lt _ (by omega)
      show (match digVal (digChar (n % 10)) with
            | some d => parseDigitsCore []
                (10 * (acc * 10 ^ (natDigits (n / 10)).length + n / 10) + d)
            | Option.none => Option.none) = _
      rw [digVal_digChar _ hm]
      show some (10 * (acc * 10 ^ (natDigits (n / 10)).length + n / 10) + n % 10)
          = some (acc * 10 ^ (natDigits (n / 10) ++ [digChar (n % 10)]).length + n)
      congr 1
      rw [List.length_append, List.length_singleton, pow_succ]
      have hdm : 10 * (n / 10) + n % 10 = n := Nat.div_add_mod n 10
      calc 10 * (acc * 10 ^ (natDigits (n / 10)).length + n / 10) + n % 10
          = acc * 10 ^ (natDigits (n / 10)).length * 10
            + (10 * (n / 10) + n % 10) := by ring
        _ = acc * (10 ^ (natDigits (n / 10)).length * 10) + n := by rw [hdm]; ring

theorem parseDigits_natDigits (n : ℕ) : parseDigits (natDigits n) = some n := by
  unfold parseDigits
  rw [if_neg (natDigits_ne_nil n), parseDigitsCore_natDigits n 0]
  simp

theorem takeWhile_all {α : Type} {p : α → Bool} :
    ∀ l : List α, (∀ c ∈ l, p c = true) → l.takeWhile p = l := by
  intro l h
  induction l with
  | nil => rfl
  | cons a l ih =>
    rw [List.takeWhile_cons, h a (by simp)]
    simp only [if_true]
    rw [ih (fun c hc => h c (by simp [hc]))]

theorem dropWhile_all {α : Type} {p : α → Bool} :
    ∀ l : List α, (∀ c ∈ l, p c = true) → l.dropWhile p = [] := by
  intro l h
  induction l with
  | nil => rfl
  | cons a l ih =>
    rw [List.dropWhile_cons, h a (by simp)]
    simp only [if_true]
    exact ih (fun c hc => h c (by simp [hc]))

theorem parseUF_natDigits (n : ℕ) : parseUF (natDigits n) = some ((n : ℚ)) := by
  have hall : ∀ c ∈ natDigits n, (c != '.') = true := by
    intro c hc
    obtain ⟨d, hd, rfl⟩ := natDigits_mem n c hc
    exact digChar_ne_dot d hd
  have hspan : (natDigits n).span (fun c => c != '.') = (natDigits n, []) := by
    rw [List.span_eq_take_drop, takeWhile_all _ hall, dropWhile_all _ hall]
  unfold parseUF
  rw [hspan]
  show (match parseDigits (natDigits n) with
        | some m => some ((m : ℚ))
        | Option.none => Option.none) = some ((n : ℚ))
  rw [parseDigits_natDigits]

theorem parseFloatQ_natRepr (n : ℕ) : parseFloatQ (natRepr n) = some ((n : ℚ)) := by
  unfold parseFloatQ natRepr
  show (match (String.mk (natDigits n)).toList with
        | [] => Option.none
        | c :: cs =>
          if c = '-' then (parseUF cs).map Neg.neg
          else if c = '+' then parseUF cs
          else parseUF (c :: cs)) = some ((n : ℚ))
  have htl : (String.mk (natDigits n)).toList = natDigits n := rfl
  rw [htl]
  cases hnd : natDigits n with
  | nil => exact absurd hnd (natDigits_ne_nil n)
  | cons c cs =>
    have hcmem : c ∈ natDigits n := by rw [hnd]; simp
    obtain ⟨d, hd, rfl⟩ := natDigits_mem n c hcmem
    show (if digChar d = '-' then (parseUF cs).map Neg.neg
          else if digChar d = '+' then parseUF cs
          else parseUF (digChar d :: cs)) = some ((n : ℚ))
    rw [if_neg (digChar_ne_minus d hd), if_neg (digChar_ne_plus d hd), ← hnd]
    exact parseUF_natDigits n

theorem parseFloatQ_intStr (m : ℤ) : parseFloatQ (intStr m) = some ((m : ℚ)) := by
  unfold intStr
  by_cases hm : m < 0
  · rw [if_pos hm]
    show (match (String.mk ('-' :: natDigits m.natAbs)).toList with
          | [] => Option.none
          | c :: cs =>
            if c = '-' then (parseUF cs).map Neg.neg
            else if c = '+' then parseUF cs
            else parseUF (c :: cs)) = some ((m : ℚ))
    have htl : (String.mk ('-' :: natDigits m.natAbs)).toList
        = '-' :: natDigits m.natAbs := rfl
    rw [htl]
    show (if ('-' : Char) = '-' then (parseUF (natDigits m.natAbs)).map Neg.neg
          else if ('-' : Char) = '+' then parseUF (natDigits m.natAbs)
          else parseUF ('-' :: natDigits m.natAbs)) = some ((m : ℚ))
    rw [if_pos rfl, parseUF_natDigits]
    have h2 : ((m.natAbs : ℕ) : ℚ) = -(m : ℚ) := by
      push_cast [Int.cast_natAbs]
      rw [abs_of_neg]
      exact_mod_cast hm
    show some (-((m.natAbs : ℚ))) = some ((m : ℚ))
    rw [h2, neg_neg]
  · rw [if_neg hm]
    rw [parseFloatQ_natRepr m.natAbs]
    have h2 : ((m.natAbs : ℕ) : ℚ) = (m : ℚ) := by
      push_cast [Int.cast_natAbs]
      rw [abs_of_nonneg]
      exact_mod_cast (by omega : (0 : ℤ) ≤ m)
    rw [h2]

/-! ### Truncation lemmas -/

theorem truncQ_intCast (m : ℤ) : truncQ ((m : ℚ)) = m := by
  unfold truncQ
  split
  · exact Int.floor_intCast m
  · exact Int.ceil_intCast m

theorem truncQ_natCast (n : ℕ) : truncQ ((n : ℚ)) = (n : ℤ) := by
  have h : ((n : ℤ) : ℚ) = (n : ℚ) := by norm_cast
  rw [← h, truncQ_intCast]

theorem intStr_natCast (n : ℕ) : intStr ((n : ℤ)) = natRepr n := by
  unfold intStr
  rw [if_neg (by omega)]
  rfl

/-- `(truncQ q : ℚ) = q` exactly when `q` is an integer. -/
theorem truncQ_exact_iff (q : ℚ) : ((truncQ q : ℤ) : ℚ) = q ↔ q.den = 1 := by
  constructor
  · intro h
    rw [← h]
    exact Rat.den_intCast _
  · intro h
    have hq : ((q.num : ℤ) : ℚ) = q := by
      conv_rhs => rw [← Rat.num_div_den q]
      rw [h]
      norm_num
    rw [← hq, truncQ_intCast]

/-! ### Identifier-normalization lemmas -/

theorem normId_num (q : ℚ) : normId (Val.num q) = .ok (intStr (truncQ q)) := rfl

theorem normId_natCast (n : ℕ) : normId (Val.num ((n : ℚ))) = .ok (natRepr n) := by
  rw [normId_num, truncQ_natCast, intStr_natCast]

theorem normId_str_intStr (m : ℤ) : normId (Val.str (intStr m)) = .ok (intStr m) := by
  unfold normId
  have hf : pyFloat (Val.str (intStr m)) = .ok ((m : ℚ)) := by
    simp only [pyFloat, parseFloatQ_intStr]
  rw [hf]
  show Except.ok (intStr (truncQ ((m : ℚ)))) = Except.ok (intStr m)
  rw [truncQ_intCast]

/-! ### Batch-slicing lemmas -/

theorem chunks_nil {α : Type} (B : ℕ) : chunks B ([] : List α) = [] := by
  unfold chunks
  have h : ((List.length ([] : List α)) + B - 1) / B = 0 := by
    simp only [List.length_nil, Nat.zero_add]
    match B with
    | 0 => rfl
    | B + 1 => exact Nat.div_eq_of_lt (by omega)
  rw [h]
  rfl

theorem length_chunks {α : Type} (B : ℕ) (l : List α) :
    (chunks B l).length = (l.length + B - 1) / B := by
  unfold chunks
  rw [List.length_map, List.length_range]

theorem get_chunks {α : Type} (B : ℕ) (l : List α) (i : ℕ) (h : i < (chunks B l).length) :
    (chunks B l).get ⟨i, h⟩ = (l.drop (i * B)).take B := by
  unfold chunks at h ⊢
  rw [List.get_eq_getElem]
  simp [List.getElem_map, List.getElem_range]

theorem ceil_div_succ {B N : ℕ} (hB : 0 < B) (hN : 1 ≤ N) :
    (N + B - 1) / B = (N - 1) / B + 1 := by
  have h1 : N + B - 1 = (N - 1) + B := by omega
  rw [h1, Nat.add_div_right _ hB]

theorem chunks_cons {α : Type} {B : ℕ} (hB : 0 < B) (l : List α) (hl : l ≠ []) :
    chunks B l = l.take B :: chunks B (l.drop B) := by
  have hN : 1 ≤ l.length := List.length_pos.mpr hl
  have hk : (l.length + B - 1) / B = (l.length - 1) / B + 1 := ceil_div_succ hB hN
  have hk2 : ((l.drop B).length + B - 1) / B = (l.length - 1) / B := by
    rw [List.length_drop]
    rcases le_or_lt l.length B with h | h
    · have h0 : l.length - B = 0 := by omega
      rw [h0]
      have h1 : (0 + B - 1) / B = 0 := Nat.div_eq_of_lt (by omega)
      have h2 : (l.length - 1) / B = 0 := Nat.div_eq_of_lt (by omega)
      rw [h1, h2]
    · have h1 : l.length - B + B - 1 = (l.length - B - 1) + B := by omega
      have h2 : l.length - 1 = (l.length - B - 1) + B := by omega
      rw [h1, h2, Nat.add_div_right _ hB]
  show (List.range ((l.length + B - 1) / B)).map (fun i => (l.drop (i * B)).take B)
      = l.take B :: (List.range (((l.drop B).length + B - 1) / B)).map
          (fun i => ((l.drop B).drop (i * B)).take B)
  rw [hk, hk2, List.range_succ_eq_map, List.map_cons, List.map_map]
  congr 1
  · rw [Nat.zero_mul, List.drop_zero]
  · apply List.map_congr_left
    intro j _
    show ((l.drop (j.succ * B)).take B) = ((l.drop B).drop (j * B)).take B
    rw [List.drop_drop]
    congr 2
    rw [Nat.succ_mul]
    omega

theorem chunks_join {α : Type} {B : ℕ} (hB : 0 < B) (l : List α) :
    (chunks B l).flatten = l := by
  suffices H : ∀ n (l : List α), l.length ≤ n → (chunks B l).flatten = l by
    exact H l.length l le_rfl
  intro n
  induction n with
  | zero =>
    intro l hl
    have h0 : l = [] := List.length_eq_zero.mp (by omega)
    subst h0
    rw [chunks_nil]
    rfl
  | succ n ih =>
    intro l hl
    rcases eq_or_ne l [] with rfl | hne
    · rw [chunks_nil]; rfl
    · rw [chunks_cons hB l hne, List.flatten_cons]
      have hlen : (l.drop B).length ≤ n := by
        rw [List.length_drop]
        have := List.length_pos.mpr hne
        omega
      rw [ih (l.drop B) hlen]
      exact List.take_append_drop B l

theorem chunks_size_mid {α : Type} {B : ℕ} (hB : 0 < B) (l : List α) (i : ℕ)
    (h : i < (chunks B l).length) (hmid : i + 1 < (chunks B l).length) :
    ((chunks B l).get ⟨i, h⟩).length = B := by
  rw [get_chunks, List.length_take, List.length_drop]
  rw [length_chunks] at hmid
  have hN : 1 ≤ l.length := by
    by_contra h0
    have hz : l.length = 0 := by omega
    rw [hz] at hmid
    have : (0 + B - 1) / B = 0 := by
      match B with
      | 0 => rfl
      | B + 1 => exact Nat.div_eq_of_lt (by omega)
    omega
  rw [ceil_div_succ hB hN] at hmid
  have h2 : i + 1 ≤ (l.length - 1) / B := by omega
  have h3 : (i + 1) * B ≤ ((l.length - 1) / B) * B := Nat.mul_le_mul_right B h2
  have h4 : ((l.length - 1) / B) * B ≤ l.length - 1 := Nat.div_mul_le_self _ _
  rw [Nat.succ_mul] at h3
  generalize hA : i * B = a at h3 ⊢
  generalize hW : ((l.length - 1) / B) * B = w at h3 h4
  rw [Nat.min_eq_left (by omega)]

theorem chunks_size_last {α : Type} {B : ℕ} (hB : 0 < B) (l : List α) (hl : l ≠ [])
    (i : ℕ) (h : i < (chunks B l).length) (hlast : i + 1 = (chunks B l).length) :
    ((chunks B l).get ⟨i, h⟩).length
      = if l.length % B = 0 then B else l.length % B := by
  rw [get_chunks, List.length_take, List.length_drop]
  have hN : 1 ≤ l.length := List.length_pos.mpr hl
  rw [length_chunks, ceil_div_succ hB hN] at hlast
  have hi : i = (l.length - 1) / B := by omega
  subst hi
  have hdm := Nat.div_add_mod (l.length - 1) B
  have hr : (l.length - 1) % B < B := Nat.mod_lt _ hB
  set q := (l.length - 1) / B with hq
  set r := (l.length - 1) % B with hrdef
  have hL : l.length = B * q + r + 1 := by omega
  have hmod : l.length % B = (r + 1) % B := by
    conv_lhs => rw [hL, show B * q + r + 1 = B * q + (r + 1) from by ring]
    exact Nat.mul_add_mod B q (r + 1)
  have hsub : l.length - q * B = r + 1 := by
    have hqB : q * B = B * q := by ring
    generalize hX : B * q = x at hL hqB
    omega
  rw [hsub]
  by_cases h0 : l.length % B = 0
  · rw [if_pos h0]
    have hz : (r + 1) % B = 0 := by omega
    have hrB : r + 1 = B := by
      by_cases hlt : r + 1 < B
      · rw [Nat.mod_eq_of_lt hlt] at hz; omega
      · omega
    rw [hrB, Nat.min_self]
  · rw [if_neg h0]
    have hcase : r + 1 < B ∨ r + 1 = B := by omega
    rcases hcase with hlt | heq
    · have hval : l.length % B = r + 1 := by rw [hmod, Nat.mod_eq_of_lt hlt]
      rw [Nat.min_eq_right (by omega), hval]
    · exfalso
      apply h0
      rw [hmod, heq, Nat.mod_self]

/-! ### POST-loop lemmas -/

theorem api_post_ok {data : List PyDict} (h : dumpsOk data = true) (w : Wire) :
    api_post data w = .ok (wireOk w, respOut w) := by
  unfold api_post
  rw [if_pos h]
  cases w with
  | exn msg => rfl
  | resp st text body => rfl

theorem sendLoop_all_ok (wire : ℕ → Wire) :
    ∀ (bs : List (List PyDict)) (j : ℕ), (∀ b ∈ bs, dumpsOk b = true) →
      (∀ i, wireOk (wire i) = true) → sendLoop wire j bs = (.ok true, bs) := by
  intro bs
  induction bs with
  | nil => intro j _ _; rfl
  | cons b bs ih =>
    intro j hd hw
    have hb : dumpsOk b = true := hd b (by simp)
    simp only [sendLoop]
    rw [api_post_ok hb (wire j)]
    simp only [hw j, if_true]
    rw [ih (j + 1) (fun x hx => hd x (by simp [hx])) hw]

theorem sendLoop_abort (wire : ℕ → Wire) :
    ∀ (bs : List (List PyDict)) (j k : ℕ), k < bs.length →
      (∀ b ∈ bs, dumpsOk b = true) →
      (∀ i, i < k → wireOk (wire (j + i)) = true) →
      wireOk (wire (j + k)) = false →
      sendLoop wire j bs = (.ok false, bs.take (k + 1)) := by
  intro bs
  induction bs with
  | nil => intro j k hk _ _ _; simp at hk
  | cons b bs ih =>
    intro j k hk hd hpre hfail
    have hb : dumpsOk b = true := hd b (by simp)
    simp only [sendLoop]
    rw [api_post_ok hb (wire j)]
    cases k with
    | zero =>
      have h0 : wireOk (wire j) = false := by simpa using hfail
      simp [h0]
    | succ k =>
      have h0 : wireOk (wire j) = true := by simpa using hpre 0 (by omega)
      simp only [h0, if_true]
      have hpre' : ∀ i, i < k → wireOk (wire (j + 1 + i)) = true := by
        intro i hi
        have := hpre (i + 1) (by omega)
        rw [show j + (i + 1) = j + 1 + i from by omega] at this
        exact this
      have hfail' : wireOk (wire (j + 1 + k)) = false := by
        rw [show j + 1 + k = j + (k + 1) from by omega]
        exact hfail
      rw [ih (j + 1) k (by simpa using hk) (fun x hx => hd x (by simp [hx])) hpre' hfail']
      simp [List.take_succ_cons]

/-! ### Row-skip lemmas -/

theorem exceptToOption_ok {ε α : Type} (b : α) :
    exceptToOption (.ok b : Except ε α) = some b := rfl

theorem exceptToOption_error {ε α : Type} (e : ε) :
    exceptToOption (.error e : Except ε α) = Option.none := rfl

theorem exceptOk_ok {ε α : Type} (b : α) : exceptOk (.ok b : Except ε α) = true := rfl

theorem exceptOk_error {ε α : Type} (e : ε) :
    exceptOk (.error e : Except ε α) = false := rfl

theorem length_filterMap_exceptOk {α β : Type} (f : α → Except String β) :
    ∀ l : List α, (l.filterMap (fun a => exceptToOption (f a))).length
      = l.countP (fun a => exceptOk (f a)) := by
  intro l
  induction l with
  | nil => rfl
  | cons a t ih =>
    cases hfa : f a with
    | ok b =>
      simp [List.filterMap_cons, List.countP_cons, hfa, exceptToOption_ok, exceptOk_ok, ih]
    | error e =>
      simp [List.filterMap_cons, List.countP_cons, hfa, exceptToOption_error, exceptOk_error, ih]

theorem countP_add_countP_not {α : Type} (p : α → Bool) :
    ∀ l : List α, l.countP p + l.countP (fun a => !(p a)) = l.length := by
  intro l
  induction l with
  | nil => rfl
  | cons a t ih =>
    cases hpa : p a <;> simp [List.countP_cons, hpa] <;> omega

theorem filterMap_skip {α β : Type} (f : α → Except String β) (pre post : List α)
    (bad : α) (hbad : exceptOk (f bad) = false) :
    (pre ++ bad :: post).filterMap (fun a => exceptToOption (f a))
      = pre.filterMap (fun a => exceptToOption (f a))
        ++ post.filterMap (fun a => exceptToOption (f a)) := by
  rw [List.filterMap_append]
  congr 1
  cases hfa : f bad with
  | ok b => rw [hfa, exceptOk_ok] at hbad; exact absurd hbad (by simp)
  | error e => simp [List.filterMap_cons, hfa, exceptToOption_error]

/-! ### Unfolding equations for the job models -/

theorem accRun_data (data : List PyDict) (wire : ℕ → Wire) :
    AccUsersSync.run true (.ok data) wire
      = (match api_post data (wire 0) with
         | .error e => (.error e, [])
         | .ok (ok, _) => (.ok ok, [data])) := rfl

theorem itemsRun_data (data : List PyDict) (wire : ℕ → Wire) :
    ItemsSync.run true (.ok data) wire
      = (if data.length = 0 then (.ok true, [])
         else sendLoop wire 0 (chunks 1000 data)) := rfl

theorem billsRun_data (data : List PyDict) (wire : ℕ → Wire) :
    BillsSync.run true (.ok data) wire
      = (match api_post data (wire 0) with
         | .error _ => (false, [])
         | .ok (ok, _) => (ok, [data])) := rfl

theorem kotRun_data (data : List PyDict) (wire : ℕ → Wire) :
    KotSalesSync.run true (.ok data) wire
      = (if data.length = 0 then (true, [])
         else
           match sendLoop wire 0 (chunks 500 data) with
           | (.error _, sent) => (false, sent)
           | (.ok b, sent) => (b, sent)) := rfl

theorem cancelledRun_data (data : List PyDict) (wire : ℕ → Wire) :
    CancelledBillsSync.run true (.ok data) wire
      = (match api_post data (wire 0) with
         | .error _ => (false, [])
         | .ok (ok, _) => (ok, [data])) := rfl

theorem batches_dumpsOk {B : ℕ} (hB : 0 < B) (data : List PyDict)
    (hser : ∀ r ∈ data, recOk r = true) :
    ∀ b ∈ chunks B data, dumpsOk b = true := by
  intro b hb
  have hmem : ∀ r ∈ b, r ∈ data := by
    intro r hr
    rw [← chunks_join hB data]
    exact List.mem_flatten.mpr ⟨b, hb, hr⟩
  exact List.all_eq_true.mpr (fun r hr => hser r (hmem r hr))

/-! ### Claim C1 -/

/-- C1, counterexample: with an empty fetched row-set, `AccUsersSync.run`
still issues one HTTP POST (carrying the empty list) and, when that POST
returns status 500, returns `False` — so it is not the case that every job
returns `True` with zero POSTs on an empty row-set. -/
theorem claim_C1_counterexample :
    AccUsersSync.run true (.ok []) (fun _ => Wire.resp 500 "" JsonV.null)
      = (.ok false, [[]])
    ∧ (AccUsersSync.run true (.ok []) (fun _ => Wire.resp 500 "" JsonV.null)
        ≠ (.ok true, [])) := by
  constructor
  · rfl
  · intro h
    have h2 : ((.ok false, [[]]) : Except String Bool × List (List PyDict))
        = (.ok true, []) := by
      rw [← h]
      rfl
    simp at h2

/-- C1, amended: if the fetched row-set is empty, the batched jobs
(`ItemsSync`, `KotSalesSync`) return `True` and issue zero POSTs; the
unbatched jobs (`AccUsersSync`, `BillsSync`, `CancelledBillsSync`) issue
exactly one POST carrying the empty list and succeed exactly when that POST
returns HTTP 200. -/
theorem claim_C1_amended : ∀ wire : ℕ → Wire,
    ItemsSync.run true (.ok []) wire = (.ok true, [])
    ∧ KotSalesSync.run true (.ok []) wire = (true, [])
    ∧ AccUsersSync.run true (.ok []) wire = (.ok (wireOk (wire 0)), [[]])
    ∧ BillsSync.run true (.ok []) wire = (wireOk (wire 0), [[]])
    ∧ CancelledBillsSync.run true (.ok []) wire = (wireOk (wire 0), [[]]) := by
  intro wire
  have hpost := api_post_ok (show dumpsOk [] = true from rfl) (wire 0)
  refine ⟨rfl, rfl, ?_, ?_, ?_⟩
  · rw [accRun_data, hpost]
  · rw [billsRun_data, hpost]
  · rw [cancelledRun_data, hpost]

/-! ### Claim C2 -/

/-- C2: for every batch size `B > 0` and non-empty list, the slicing
produces exactly `ceil(N/B)` batches; concatenating them in order gives the
list back (each batch is a contiguous in-order slice); every batch except
the last has size `B`; the last has size `N mod B` (or `B` when `B` divides
`N`).  Moreover, when every POST succeeds, `ItemsSync.run` sends exactly the
1000-slicing and `KotSalesSync.run` exactly the 500-slicing of its data. -/
theorem claim_C2 :
    (∀ (α : Type) (B : ℕ), 0 < B → ∀ l : List α, l ≠ [] →
      (chunks B l).length = (l.length + B - 1) / B
      ∧ (chunks B l).flatten = l
      ∧ (∀ i (h : i < (chunks B l).length),
          (chunks B l).get ⟨i, h⟩ = (l.drop (i * B)).take B)
      ∧ (∀ i (h : i < (chunks B l).length), i + 1 < (chunks B l).length →
          ((chunks B l).get ⟨i, h⟩).length = B)
      ∧ (∀ i (h : i < (chunks B l).length), i + 1 = (chunks B l).length →
          ((chunks B l).get ⟨i, h⟩).length
            = if l.length % B = 0 then B else l.length % B))
    ∧ (∀ (data : List PyDict) (wire : ℕ → Wire), data ≠ [] →
        (∀ r ∈ data, recOk r = true) → (∀ i, wireOk (wire i) = true) →
        ItemsSync.run true (.ok data) wire = (.ok true, chunks 1000 data)
        ∧ KotSalesSync.run true (.ok data) wire = (true, chunks 500 data)) := by
  constructor
  · intro α B hB l hl
    exact ⟨length_chunks B l, chunks_join hB l, get_chunks B l,
      fun i h hmid => chunks_size_mid hB l i h hmid,
      fun i h hlast => chunks_size_last hB l hl i h hlast⟩
  · intro data wire hne hser hw
    have hlen : ¬ data.length = 0 := fun h => hne (List.length_eq_zero.mp h)
    constructor
    · rw [itemsRun_data, if_neg hlen]
      exact sendLoop_all_ok wire (chunks 1000 data) 0
        (batches_dumpsOk (by norm_num) data hser) hw
    · rw [kotRun_data, if_neg hlen]
      rw [sendLoop_all_ok wire (chunks 500 data) 0
        (batches_dumpsOk (by norm_num) data hser) hw]

/-- C2, witness: the batching facts at `B = 2` on a 5-element list and the
job-level facts on a concrete 3-record payload with all POSTs succeeding. -/
theorem claim_C2_witness :
    ((chunks 2 [0, 1, 2, 3, 4]).length = (5 + 2 - 1) / 2
      ∧ (chunks 2 [0, 1, 2, 3, 4]).flatten = [0, 1, 2, 3, 4]
      ∧ (∀ i (h : i < (chunks 2 [0, 1, 2, 3, 4]).length),
          (chunks 2 [0, 1, 2, 3, 4]).get ⟨i, h⟩ = (([0, 1, 2, 3, 4]).drop (i * 2)).take 2)
      ∧ (∀ i (h : i < (chunks 2 [0, 1, 2, 3, 4]).length),
          i + 1 < (chunks 2 [0, 1, 2, 3, 4]).length →
          ((chunks 2 [0, 1, 2, 3, 4]).get ⟨i, h⟩).length = 2)
      ∧ (∀ i (h : i < (chunks 2 [0, 1, 2, 3, 4]).length),
          i + 1 = (chunks 2 [0, 1, 2, 3, 4]).length →
          ((chunks 2 [0, 1, 2, 3, 4]).get ⟨i, h⟩).length
            = if ([0, 1, 2, 3, 4] : List ℕ).length % 2 = 0 then 2
              else ([0, 1, 2, 3, 4] : List ℕ).length % 2))
    ∧ (ItemsSync.run true
        (.ok [[("id", Val.str "a")], [("id", Val.str "b")], [("id", Val.str "c")]])
        (fun _ => Wire.resp 200 "" JsonV.null)
        = (.ok true, chunks 1000
            [[("id", Val.str "a")], [("id", Val.str "b")], [("id", Val.str "c")]])
      ∧ KotSalesSync.run true
        (.ok [[("id", Val.str "a")], [("id", Val.str "b")], [("id", Val.str "c")]])
        (fun _ => Wire.resp 200 "" JsonV.null)
        = (true, chunks 500
            [[("id", Val.str "a")], [("id", Val.str "b")], [("id", Val.str "c")]])) :=
  ⟨claim_C2.1 ℕ 2 (by norm_num) [0, 1, 2, 3, 4] (by simp),
   claim_C2.2 [[("id", Val.str "a")], [("id", Val.str "b")], [("id", Val.str "c")]]
     (fun _ => Wire.resp 200 "" JsonV.null) (by simp) (by decide) (fun _ => rfl)⟩

/-! ### Claim C3 -/

/-- C3: if the first `k` batch POSTs succeed and the `k`-th fails (non-200
status or request exception, i.e. `wireOk` is `false`), then the job sends
exactly the first `k + 1` batches — none with index greater than `k` — and
`run` returns failure. -/
theorem claim_C3 :
    (∀ (data : List PyDict) (wire : ℕ → Wire) (k : ℕ),
      (∀ r ∈ data, recOk r = true) → k < (chunks 1000 data).length →
      (∀ i, i < k → wireOk (wire i) = true) → wireOk (wire k) = false →
      ItemsSync.run true (.ok data) wire
        = (.ok false, (chunks 1000 data).take (k + 1)))
    ∧ (∀ (data : List PyDict) (wire : ℕ → Wire) (k : ℕ),
      (∀ r ∈ data, recOk r = true) → k < (chunks 500 data).length →
      (∀ i, i < k → wireOk (wire i) = true) → wireOk (wire k) = false →
      KotSalesSync.run true (.ok data) wire
        = (false, (chunks 500 data).take (k + 1))) := by
  constructor
  · intro data wire k hser hk hpre hfail
    have hne : ¬ data.length = 0 := by
      intro h
      rw [List.length_eq_zero.mp h, chunks_nil] at hk
      simp at hk
    rw [itemsRun_data, if_neg hne]
    exact sendLoop_abort wire (chunks 1000 data) 0 k hk
      (batches_dumpsOk (by norm_num) data hser)
      (fun i hi => by simpa using hpre i hi) (by simpa using hfail)
  · intro data wire k hser hk hpre hfail
    have hne : ¬ data.length = 0 := by
      intro h
      rw [List.length_eq_zero.mp h, chunks_nil] at hk
      simp at hk
    rw [kotRun_data, if_neg hne]
    rw [sendLoop_abort wire (chunks 500 data) 0 k hk
      (batches_dumpsOk (by norm_num) data hser)
      (fun i hi => by simpa using hpre i hi) (by simpa using hfail)]

/-- C3, witness: a concrete 3-record payload whose only batch POST fails
with status 500; both batched jobs send exactly that one batch and fail. -/
theorem claim_C3_witness :
    ItemsSync.run true
      (.ok [[("id", Val.str "a")], [("id", Val.str "b")], [("id", Val.str "c")]])
      (fun _ => Wire.resp 500 "" JsonV.null)
      = (.ok false, (chunks 1000
          [[("id", Val.str "a")], [("id", Val.str "b")], [("id", Val.str "c")]]).take 1)
    ∧ KotSalesSync.run true
      (.ok [[("id", Val.str "a")], [("id", Val.str "b")], [("id", Val.str "c")]])
      (fun _ => Wire.resp 500 "" JsonV.null)
      = (false, (chunks 500
          [[("id", Val.str "a")], [("id", Val.str "b")], [("id", Val.str "c")]]).take 1) :=
  ⟨claim_C3.1 [[("id", Val.str "a")], [("id", Val.str "b")], [("id", Val.str "c")]]
     (fun _ => Wire.resp 500 "" JsonV.null) 0 (by decide) (by decide)
     (fun i hi => absurd hi (Nat.not_lt_zero i)) rfl,
   claim_C3.2 [[("id", Val.str "a")], [("id", Val.str "b")], [("id", Val.str "c")]]
     (fun _ => Wire.resp 500 "" JsonV.null) 0 (by decide) (by decide)
     (fun i hi => absurd hi (Nat.not_lt_zero i)) rfl⟩

/-! ### Claim C4 -/

/-- C4, counterexample: `AccUsersSync.run` has no `except` clause, so a
database error raised inside `fetch` escapes its `run` boundary instead of
becoming a boolean, and the orchestrator aborts: `mainRun` yields that error
and records no outcome for any job, so the later jobs never run. -/
theorem claim_C4_counterexample :
    (AccUsersSync.run true (.error "pyodbc.Error: query failed")
        (fun _ => Wire.resp 200 "" JsonV.null)).1
      = .error "pyodbc.Error: query failed"
    ∧ mainRun
        ⟨true, .error "pyodbc.Error: query failed", fun _ => Wire.resp 200 "" JsonV.null⟩
        ⟨true, .ok [], fun _ => Wire.resp 200 "" JsonV.null⟩
        ⟨true, .ok [], fun _ => Wire.resp 200 "" JsonV.null⟩
        ⟨true, .ok [], fun _ => Wire.resp 200 "" JsonV.null⟩
        ⟨true, .ok [], fun _ => Wire.resp 200 "" JsonV.null⟩
      = .error "pyodbc.Error: query failed" :=
  ⟨rfl, rfl⟩

/-- C4, amended: `BillsSync.run`, `KotSalesSync.run` and
`CancelledBillsSync.run` catch every error and always return a boolean (the
models are total boolean functions); `AccUsersSync.run` and `ItemsSync.run`
let fetch/serialization errors escape, aborting the orchestrator.  Whenever
the first two jobs do return booleans, the orchestrator records exactly one
`(name, flag)` outcome per job, each flag determined only by that job's own
inputs. -/
theorem claim_C4_amended :
    ∀ (i1 i2 i3 i4 i5 : JobIn) (b1 b2 : Bool),
      (AccUsersSync.run i1.connOk i1.fetched i1.wire).1 = .ok b1 →
      (ItemsSync.run i2.connOk i2.fetched i2.wire).1 = .ok b2 →
      mainRun i1 i2 i3 i4 i5 = .ok
        [("acc_users", b1), ("tb_item_master", b2),
         ("dine_bill", (BillsSync.run i3.connOk i3.fetched i3.wire).1),
         ("dine_kot_sales_detail", (KotSalesSync.run i4.connOk i4.fetched i4.wire).1),
         ("cancelled_bills", (CancelledBillsSync.run i5.connOk i5.fetched i5.wire).1)] := by
  intro i1 i2 i3 i4 i5 b1 b2 h1 h2
  unfold mainRun
  rw [h1, h2]
  rfl

/-- C4, witness: with all connections failing, every job returns `False`
and the orchestrator records the five outcomes. -/
theorem claim_C4_witness :
    mainRun ⟨false, .ok [], fun _ => Wire.resp 200 "" JsonV.null⟩
      ⟨false, .ok [], fun _ => Wire.resp 200 "" JsonV.null⟩
      ⟨false, .ok [], fun _ => Wire.resp 200 "" JsonV.null⟩
      ⟨false, .ok [], fun _ => Wire.resp 200 "" JsonV.null⟩
      ⟨false, .ok [], fun _ => Wire.resp 200 "" JsonV.null⟩
      = .ok [("acc_users", false), ("tb_item_master", false), ("dine_bill", false),
             ("dine_kot_sales_detail", false), ("cancelled_bills", false)] :=
  claim_C4_amended ⟨false, .ok [], fun _ => Wire.resp 200 "" JsonV.null⟩
    ⟨false, .ok [], fun _ => Wire.resp 200 "" JsonV.null⟩
    ⟨false, .ok [], fun _ => Wire.resp 200 "" JsonV.null⟩
    ⟨false, .ok [], fun _ => Wire.resp 200 "" JsonV.null⟩
    ⟨false, .ok [], fun _ => Wire.resp 200 "" JsonV.null⟩
    false false rfl rfl

/-! ### Claim C5 -/

/-- C5, counterexample: `api_post` applied to a record list holding a value
that `json.dumps(..., default=decimal_to_float)` cannot encode (a raw
`datetime`) raises a `TypeError` past its boundary instead of returning a
`(success, reason)` pair — `except requests.RequestException` does not catch
it — so `api_post` does not hold for every record list. -/
theorem claim_C5_counterexample :
    api_post [[("time", Val.time "2024-01-01T00:00:00")]]
        (Wire.resp 200 "ok" JsonV.null)
      = .error "TypeError: Object of type ... is not JSON serializable"
    ∧ ∀ r : Bool × ApiSecond,
        api_post [[("time", Val.time "2024-01-01T00:00:00")]]
          (Wire.resp 200 "ok" JsonV.null) ≠ .ok r := by
  refine ⟨rfl, ?_⟩
  intro r h
  have h0 : api_post [[("time", Val.time "2024-01-01T00:00:00")]]
      (Wire.resp 200 "ok" JsonV.null)
      = .error "TypeError: Object of type ... is not JSON serializable" := rfl
  rw [h0] at h
  exact Except.noConfusion h

/-- C5, amended: for every record list that `json.dumps` can serialize,
`api_post` succeeds exactly when the HTTP status is 200; any request
exception yields `(False, str(e))`; a response body is returned parsed and
an empty body becomes `{}`; and no exception escapes.  (Unserializable
payloads raise `TypeError`, per the counterexample.) -/
theorem claim_C5_amended : ∀ data : List PyDict, dumpsOk data = true →
    (∀ msg, api_post data (Wire.exn msg) = .ok (false, ApiSecond.err msg))
    ∧ (∀ st text body, api_post data (Wire.resp st text body)
        = .ok ((st == 200 : Bool),
            if text = "" then ApiSecond.json (JsonV.obj []) else ApiSecond.json body))
    ∧ (∀ w, (∃ t b, w = Wire.resp 200 t b) ↔ api_post data w = .ok (true, respOut w)) := by
  intro data h
  refine ⟨fun msg => api_post_ok h (Wire.exn msg),
          fun st text body => api_post_ok h (Wire.resp st text body), ?_⟩
  intro w
  constructor
  · rintro ⟨t, b, rfl⟩
    rw [api_post_ok h]
    rfl
  · intro hw
    rw [api_post_ok h] at hw
    cases w with
    | exn m => simp [wireOk] at hw
    | resp st t b =>
      simp only [Except.ok.injEq, Prod.mk.injEq, wireOk] at hw
      have hst : st = 200 := by simpa using hw.1
      exact ⟨t, b, by rw [hst]⟩

/-- C5, witness: the amended contract evaluated on the empty payload. -/
theorem claim_C5_witness :
    (∀ msg, api_post [] (Wire.exn msg) = .ok (false, ApiSecond.err msg))
    ∧ (∀ st text body, api_post [] (Wire.resp st text body)
        = .ok ((st == 200 : Bool),
            if text = "" then ApiSecond.json (JsonV.obj []) else ApiSecond.json body))
    ∧ (∀ w, (∃ t b, w = Wire.resp 200 t b) ↔ api_post [] w = .ok (true, respOut w)) :=
  claim_C5_amended [] rfl

/-! ### Claim C6 -/

/-- C6: a row whose per-row normalization raises is excluded from the
returned record list while iteration continues with the remaining rows, and
the number of records produced equals the number of rows fetched minus the
number of rows whose normalization raised — for both `BillsSync.fetch` and
`KotSalesSync.fetch`. -/
theorem claim_C6 :
    (∀ raws : List PyDict, (billsNormalize raws).length
        = raws.length - raws.countP (fun r => !(exceptOk (processBillRow r))))
    ∧ (∀ raws : List PyDict, (kotNormalize raws).length
        = raws.length - raws.countP (fun r => !(exceptOk (processKotRow r))))
    ∧ (∀ (pre post : List PyDict) (bad : PyDict), exceptOk (processBillRow bad) = false →
        billsNormalize (pre ++ bad :: post) = billsNormalize pre ++ billsNormalize post)
    ∧ (∀ (pre post : List PyDict) (bad : PyDict), exceptOk (processKotRow bad) = false →
        kotNormalize (pre ++ bad :: post) = kotNormalize pre ++ kotNormalize post) := by
  refine ⟨?_, ?_, ?_, ?_⟩
  · intro raws
    unfold billsNormalize
    rw [length_filterMap_exceptOk]
    have hsum := countP_add_countP_not (fun r => exceptOk (processBillRow r)) raws
    omega
  · intro raws
    unfold kotNormalize
    rw [length_filterMap_exceptOk]
    have hsum := countP_add_countP_not (fun r => exceptOk (processKotRow r)) raws
    omega
  · intro pre post bad hbad
    exact filterMap_skip processBillRow pre post bad hbad
  · intro pre post bad hbad
    exact filterMap_skip processKotRow pre post bad hbad

/-- C6, witness: a bills row and a KOT row whose `billno`/`slno` is a
non-numeric string raise `ValueError` inside `float()` and are skipped,
while the surrounding rows survive. -/
theorem claim_C6_witness :
    billsNormalize ([] ++ [("billno", Val.str "abc")] :: [[("billno", Val.num 7)]])
      = billsNormalize [] ++ billsNormalize [[("billno", Val.num 7)]]
    ∧ kotNormalize ([[("slno", Val.num 3)]] ++ [("slno", Val.str "xyz")] :: [])
      = kotNormalize [[("slno", Val.num 3)]] ++ kotNormalize [] :=
  ⟨claim_C6.2.2.1 [] [[("billno", Val.num 7)]] [("billno", Val.str "abc")] (by decide),
   claim_C6.2.2.2 [[("slno", Val.num 3)]] [] [("slno", Val.str "xyz")] (by decide)⟩

/-! ### Claim C7 -/

/-- C7: a non-null `billno`/`slno` whose numeric value is a non-negative
integer `n` (every such value exactly representable as a double is an exact
rational in this model) is normalized to the plain decimal-digit string of
`n` — no sign, no decimal point, no `".0"` suffix — and the row processors
store exactly that string; in particular the raw float `1024.0` becomes the
string `"1024"`. -/
theorem claim_C7 : ∀ n : ℕ,
    normId (Val.num ((n : ℚ))) = .ok (natRepr n)
    ∧ processBillRow [("billno", Val.num ((n : ℚ)))]
        = .ok [("billno", Val.str (natRepr n))]
    ∧ processKotRow [("slno", Val.num ((n : ℚ)))]
        = .ok [("slno", Val.str (natRepr n))]
    ∧ (∀ c ∈ (natRepr n).toList, ∃ d, d < 10 ∧ c = digChar d)
    ∧ normId (Val.num ((1024 : ℚ))) = .ok "1024" := by
  intro n
  refine ⟨normId_natCast n, ?_, ?_, ?_, ?_⟩
  · have h1 : processBillRow [("billno", Val.num ((n : ℚ)))]
        = .ok [("billno", Val.str (intStr (truncQ ((n : ℚ)))))] := rfl
    rw [h1, truncQ_natCast, intStr_natCast]
  · have h1 : processKotRow [("slno", Val.num ((n : ℚ)))]
        = .ok [("slno", Val.str (intStr (truncQ ((n : ℚ)))))] := rfl
    rw [h1, truncQ_natCast, intStr_natCast]
  · intro c hc
    exact natDigits_mem n c hc
  · have hc : ((1024 : ℕ) : ℚ) = (1024 : ℚ) := by norm_num
    rw [← hc, normId_natCast 1024, show natRepr 1024 = "1024" from by decide]

/-! ### Claim C8 -/

/-- C8: the identifier normalization `str(int(float(x)))` is idempotent on
its own outputs — feeding any string it produced back through it returns
that same string. -/
theorem claim_C8 : ∀ (v : Val) (s : String),
    normId v = .ok s → normId (Val.str s) = .ok s := by
  intro v s h
  unfold normId at h
  cases hv : pyFloat v with
  | error e =>
    rw [hv] at h
    exact absurd h (by simp [Except.map])
  | ok q =>
    rw [hv] at h
    simp only [Except.map, Except.ok.injEq] at h
    rw [← h]
    exact normId_str_intStr (truncQ q)

/-- C8, witness: `"1024"` (the normalization of the raw float `1024.0`)
re-normalizes to `"1024"`, not `"1024.0"`. -/
theorem claim_C8_witness : normId (Val.str "1024") = .ok "1024" :=
  claim_C8 (Val.num ((1024 : ℚ))) "1024" rfl

/-! ### Claim C9 -/

/-- C9: the normalization truncates toward zero — `1024.5` (raw float or
string) becomes `"1024"`, `-2.5` becomes `"-2"` — and the rendered integer
equals the input value exactly when that value is an integer
(denominator 1); non-integer fractional parts are silently discarded.
(Doubles are modelled as exact rationals, so the 2^53 representability
bound of the claim is the model's exactness premise.) -/
theorem claim_C9 :
    (∀ q : ℚ, normId (Val.num q) = .ok (intStr (truncQ q)))
    ∧ normId (Val.num ((1024 : ℚ) + 5 / 10 ^ 1)) = .ok "1024"
    ∧ normId (Val.str "1024.5") = .ok "1024"
    ∧ normId (Val.num (-(5 / 2))) = .ok "-2"
    ∧ (∀ q : ℚ, (((truncQ q : ℤ) : ℚ) = q ↔ q.den = 1)) := by
  have ht1 : truncQ ((1024 : ℚ) + 5 / 10 ^ 1) = 1024 := by
    unfold truncQ
    rw [if_pos (by norm_num)]
    norm_num
  refine ⟨normId_num, ?_, ?_, ?_, truncQ_exact_iff⟩
  · rw [normId_num, ht1, show intStr 1024 = "1024" from by decide]
  · have hp : parseFloatQ "1024.5" = some ((1024 : ℚ) + 5 / 10 ^ 1) := rfl
    have hf : pyFloat (Val.str "1024.5") = .ok ((1024 : ℚ) + 5 / 10 ^ 1) := by
      simp only [pyFloat, hp]
    unfold normId
    rw [hf]
    show Except.ok (intStr (truncQ ((1024 : ℚ) + 5 / 10 ^ 1))) = Except.ok "1024"
    rw [ht1, show intStr 1024 = "1024" from by decide]
  · rw [normId_num]
    have ht2 : truncQ (-(5 / 2) : ℚ) = -2 := by
      unfold truncQ
      rw [if_neg (by norm_num)]
      refine Int.ceil_eq_iff.mpr ?_
      constructor <;> norm_num
    rw [ht2, show intStr (-2) = "-2" from by decide]

/-! ### Claim C10 -/

/-- C10: the per-row normalization of the KOT-sales-detail job and of the
cancelled-bills job is extensionally identical between `src/sync.py` and
`src/Dine_Sync_DOUBLETAP/sync.py`: on every raw row both versions produce
the same record and skip the same rows. -/
theorem claim_C10 : ∀ d : PyDict,
    processKotRowDT d = processKotRow d
    ∧ processCancelledRowDT d = processCancelledRow d :=
  fun _ => ⟨rfl, rfl⟩

end DineSync
